import Mathlib

/-
Verification of the terminal escape-sequence parser
(src/terminal/Parser.h, src/terminal/Parser.cpp).

The parser is a byte-stream-driven state machine.  Its live path is
`parseFragment` -> `parse` -> `handleViaTables`, which consults a
precomputed transition table (`ParserTable`, declared in ParserTables.h,
which is not part of this source snapshot) after a Ground-state printable
fast path.  The source additionally contains a switch-statement
transcription of the same grammar (`handleViaSwitch` together with
`transitionTo`), which is not called from the live path.

Shallow embedding choices:
  * code points and bytes are `Nat`;
  * the UTF-8 decoder (utf8::Decoder, declared in UTF8.h, also absent
    from the snapshot) is treated as a parameter wherever possible, and a
    concrete model of it is supplied from the specification for the
    claims that need concrete decoded traces;
  * the action handler and the logger are modelled by two booleans
    (present / absent); emissions and log records are accumulated in
    lists, mirroring the guards `if (actionHandler_)` and `if (logger_)`;
  * the transition table, absent from the snapshot, is modelled from the
    specification (sections 4.4, 4.5 of spec.md); cells outside the
    table's code-point range [0x00, 0xA0) are totalized with `Undefined`
    (the C++ would read out of bounds there; that defect is exhibited
    separately on the lookup trace).
-/

namespace Terminal

/-- ActionClass from Parser.h: why a callback fires. -/
inductive ActionClass
  | Enter
  | Event
  | Leave
  | Transition
deriving DecidableEq, Repr

/-- Action from Parser.h. -/
inductive Action
  | Undefined
  | Ignore
  | Print
  | Execute
  | Clear
  | Collect
  | Param
  | ESC_Dispatch
  | CSI_Dispatch
  | Hook
  | Put
  | Unhook
  | OSC_Start
  | OSC_Put
  | OSC_End
deriving DecidableEq, Repr

/-- State from Parser.h. -/
inductive State
  | Undefined
  | Ground
  | Escape
  | EscapeIntermediate
  | CSI_Entry
  | CSI_Param
  | CSI_Intermediate
  | CSI_Ignore
  | DCS_Entry
  | DCS_Param
  | DCS_Intermediate
  | DCS_PassThrough
  | DCS_Ignore
  | OSC_String
  | SOS_PM_APC_String
deriving DecidableEq, Repr

/-- ParserTable::Range (an inclusive code-point range). -/
structure Range where
  first : Nat
  last : Nat

/-- includes from Parser.cpp: membership in an inclusive range. -/
abbrev «includes» (range : Range) (value : Nat) : Prop :=
  range.first ≤ value ∧ value ≤ range.last

/-- isExecuteChar from Parser.cpp. -/
abbrev isExecuteChar (value : Nat) : Prop :=
  «includes» ⟨0x00, 0x17⟩ value ∨ value = 0x19 ∨ «includes» ⟨0x1C, 0x1F⟩ value

/-- isParamChar from Parser.cpp. -/
abbrev isParamChar (value : Nat) : Prop :=
  «includes» ⟨0x30, 0x39⟩ value ∨ value = 0x3B

/-- isC1 from Parser.cpp. -/
abbrev isC1 (value : Nat) : Prop :=
  «includes» ⟨0x80, 0x9F⟩ value

/-- isPrintChar from Parser.cpp. -/
abbrev isPrintChar (value : Nat) : Prop :=
  «includes» ⟨0x20, 0x7F⟩ value ∨ (value > 0x7F ∧ ¬ isC1 value)

/-- One action-handler invocation: (ActionClass, Action, code point). -/
abbrev Emission := ActionClass × Action × Nat

/-- Structured log records produced through the optional logger. -/
inductive LogMsg
  | invalidUtf8
  | invalidInput (state : State) (cp : Nat)
  | unknownAction (state : State) (cp : Nat)
deriving DecidableEq, Repr

/-- Parser::invokeAction: forwards to the handler only when one is set
(`if (actionHandler_) actionHandler_(...)`). -/
def invokeAction (hasHandler : Bool) (actionClass : ActionClass) (action : Action)
    (cp : Nat) : List Emission :=
  if hasHandler then [(actionClass, action, cp)] else []

/-- Parser::log: forwards to the logger only when one is set
(`if (logger_) logger_(...)`). -/
def logMsg (hasLogger : Bool) (m : LogMsg) : List LogMsg :=
  if hasLogger then [m] else []

/-- Modelled from the spec: ParserTables.h is not under src/.  The
"anywhere" rules of spec.md section 4.4, which the table encodes into
every row ("Before step (1) or in an equivalent table encoding, these
inputs override everything regardless of current state"): 0x18, 0x1A,
0x9C and [0x80,0x8F] as well as [0x91,0x97] go to Ground; 0x1B to Escape;
0x90 to DCS_Entry; 0x98, 0x9E, 0x9F to SOS_PM_APC_String. -/
def anywhereRow (cp : Nat) : Option State :=
  if cp = 0x18 ∨ cp = 0x1A ∨ cp = 0x9C ∨
      «includes» ⟨0x80, 0x8F⟩ cp ∨ «includes» ⟨0x91, 0x97⟩ cp then
    some State.Ground
  else if cp = 0x1B then
    some State.Escape
  else if cp = 0x90 then
    some State.DCS_Entry
  else if cp = 0x98 ∨ cp = 0x9E ∨ cp = 0x9F then
    some State.SOS_PM_APC_String
  else
    none

/-- Modelled from the spec: ParserTables.h is not under src/.  Per-state
rows of spec.md section 4.5 ("the contract the table encodes"): for each
(state, code point) the pair (next state, action).  `State.Undefined` as
next state means no transition (the action, if defined, fires as an
Event); `(Undefined, Undefined)` is a table miss.  Transitions whose
action column is "-" carry `Ignore`. -/
def perStateRow (state : State) (cp : Nat) : State × Action :=
  match state with
  | State.Undefined => (State.Undefined, Action.Undefined)
  | State.Ground =>
    if isExecuteChar cp then (State.Undefined, Action.Execute)
    else if isPrintChar cp then (State.Undefined, Action.Print)
    else (State.Undefined, Action.Undefined)
  | State.Escape =>
    if isExecuteChar cp then (State.Undefined, Action.Execute)
    else if cp = 0x7F then (State.Undefined, Action.Ignore)
    else if cp = 0x58 ∨ cp = 0x5E ∨ cp = 0x5F then (State.SOS_PM_APC_String, Action.Ignore)
    else if cp = 0x50 then (State.DCS_Entry, Action.Ignore)
    else if cp = 0x5D then (State.OSC_String, Action.Ignore)
    else if cp = 0x5B then (State.CSI_Entry, Action.Ignore)
    else if «includes» ⟨0x30, 0x4F⟩ cp ∨ «includes» ⟨0x51, 0x57⟩ cp ∨ cp = 0x59 ∨
        cp = 0x5A ∨ cp = 0x5C ∨ «includes» ⟨0x60, 0x7E⟩ cp then
      (State.Ground, Action.ESC_Dispatch)
    else if «includes» ⟨0x20, 0x2F⟩ cp then (State.EscapeIntermediate, Action.Collect)
    else (State.Undefined, Action.Undefined)
  | State.EscapeIntermediate =>
    if isExecuteChar cp then (State.Undefined, Action.Execute)
    else if «includes» ⟨0x20, 0x2F⟩ cp then (State.Undefined, Action.Collect)
    else if cp = 0x7F then (State.Undefined, Action.Ignore)
    else if «includes» ⟨0x30, 0x7E⟩ cp then (State.Ground, Action.ESC_Dispatch)
    else (State.Undefined, Action.Undefined)
  | State.CSI_Entry =>
    if isExecuteChar cp then (State.Undefined, Action.Execute)
    else if cp = 0x7F then (State.Undefined, Action.Ignore)
    else if «includes» ⟨0x40, 0x7E⟩ cp then (State.Ground, Action.CSI_Dispatch)
    else if «includes» ⟨0x20, 0x2F⟩ cp then (State.CSI_Intermediate, Action.Collect)
    else if cp = 0x3A then (State.Undefined, Action.Ignore)
    else if isParamChar cp then (State.CSI_Param, Action.Param)
    else if «includes» ⟨0x3C, 0x3F⟩ cp then (State.CSI_Param, Action.Collect)
    else (State.Undefined, Action.Undefined)
  | State.CSI_Param =>
    if isExecuteChar cp then (State.Undefined, Action.Execute)
    else if isParamChar cp then (State.Undefined, Action.Param)
    else if cp = 0x7F then (State.Undefined, Action.Ignore)
    else if cp = 0x3A ∨ «includes» ⟨0x3C, 0x3F⟩ cp then (State.CSI_Ignore, Action.Ignore)
    else if «includes» ⟨0x20, 0x2F⟩ cp then (State.CSI_Intermediate, Action.Collect)
    else if «includes» ⟨0x40, 0x7E⟩ cp then (State.Ground, Action.CSI_Dispatch)
    else (State.Undefined, Action.Undefined)
  | State.CSI_Intermediate =>
    if isExecuteChar cp then (State.Undefined, Action.Execute)
    else if «includes» ⟨0x20, 0x2F⟩ cp then (State.Undefined, Action.Collect)
    else if cp = 0x7F then (State.Undefined, Action.Ignore)
    else if «includes» ⟨0x30, 0x3F⟩ cp then (State.CSI_Ignore, Action.Ignore)
    else if «includes» ⟨0x40, 0x7E⟩ cp then (State.Ground, Action.CSI_Dispatch)
    else (State.Undefined, Action.Undefined)
  | State.CSI_Ignore =>
    if isExecuteChar cp then (State.Undefined, Action.Execute)
    else if «includes» ⟨0x20, 0x3F⟩ cp ∨ cp = 0x7F then (State.Undefined, Action.Ignore)
    else if «includes» ⟨0x40, 0x7E⟩ cp then (State.Ground, Action.Ignore)
    else (State.Undefined, Action.Undefined)
  | State.DCS_Entry =>
    if isExecuteChar cp then (State.Undefined, Action.Ignore)
    else if cp = 0x7F then (State.Undefined, Action.Ignore)
    else if «includes» ⟨0x20, 0x2F⟩ cp then (State.DCS_Intermediate, Action.Collect)
    else if cp = 0x3A then (State.DCS_Ignore, Action.Ignore)
    else if isParamChar cp then (State.DCS_Param, Action.Param)
    else if «includes» ⟨0x3C, 0x3F⟩ cp then (State.DCS_Param, Action.Collect)
    else if «includes» ⟨0x40, 0x7E⟩ cp then (State.DCS_PassThrough, Action.Ignore)
    else (State.Undefined, Action.Undefined)
  | State.DCS_Param =>
    if isExecuteChar cp then (State.Undefined, Action.Execute)
    else if isParamChar cp then (State.Undefined, Action.Param)
    else if cp = 0x7F then (State.Undefined, Action.Ignore)
    else if cp = 0x3A ∨ «includes» ⟨0x3C, 0x3F⟩ cp then (State.DCS_Ignore, Action.Ignore)
    else if «includes» ⟨0x20, 0x2F⟩ cp then (State.DCS_Intermediate, Action.Collect)
    else if «includes» ⟨0x40, 0x7E⟩ cp then (State.DCS_PassThrough, Action.Ignore)
    else (State.Undefined, Action.Undefined)
  | State.DCS_Intermediate =>
    if isExecuteChar cp then (State.Undefined, Action.Execute)
    else if «includes» ⟨0x20, 0x2F⟩ cp then (State.Undefined, Action.Collect)
    else if cp = 0x7F then (State.Undefined, Action.Ignore)
    else if «includes» ⟨0x30, 0x3F⟩ cp then (State.DCS_Ignore, Action.Ignore)
    else if «includes» ⟨0x40, 0x7E⟩ cp then (State.DCS_PassThrough, Action.Ignore)
    else (State.Undefined, Action.Undefined)
  | State.DCS_PassThrough =>
    if isExecuteChar cp ∨ «includes» ⟨0x20, 0x7E⟩ cp then (State.Undefined, Action.Put)
    else if cp = 0x7F then (State.Undefined, Action.Ignore)
    else (State.Undefined, Action.Undefined)
  | State.DCS_Ignore =>
    if isExecuteChar cp ∨ «includes» ⟨0x20, 0x7F⟩ cp then (State.Undefined, Action.Ignore)
    else (State.Undefined, Action.Undefined)
  | State.OSC_String =>
    if isExecuteChar cp then (State.Undefined, Action.Ignore)
    else if «includes» ⟨0x20, 0x7F⟩ cp then (State.Undefined, Action.OSC_Put)
    else (State.Undefined, Action.Undefined)
  | State.SOS_PM_APC_String =>
    if isExecuteChar cp then (State.Undefined, Action.Ignore)
    else (State.Undefined, Action.Undefined)

/-- Modelled from the spec: ParserTables.h is not under src/.  A full
table cell: code points at or above 0xA0 are outside the table ("Only
code points in [0x00, 0xA0) are indexable in the table") and are
totalized here as a miss; within range the anywhere rows take priority
over the per-state rows. -/
def tableRow (state : State) (cp : Nat) : State × Action :=
  if 0xA0 ≤ cp then (State.Undefined, Action.Undefined)
  else
    match anywhereRow cp with
    | some target => (target, Action.Ignore)
    | none => perStateRow state cp

/-- ParserTable::transitions, modelled from the spec (next state or
Undefined). -/
def transitions (state : State) (cp : Nat) : State :=
  (tableRow state cp).1

/-- ParserTable::events, modelled from the spec (action fired during a
transition, or while remaining in the state). -/
def events (state : State) (cp : Nat) : Action :=
  (tableRow state cp).2

/-- ParserTable::entryEvents, modelled from the spec: Escape, CSI_Entry
and DCS_Entry enter with Clear; DCS_PassThrough with Hook; OSC_String
with OSC_Start. -/
def entryEvents (state : State) : Action :=
  match state with
  | State.Escape => Action.Clear
  | State.CSI_Entry => Action.Clear
  | State.DCS_Entry => Action.Clear
  | State.DCS_PassThrough => Action.Hook
  | State.OSC_String => Action.OSC_Start
  | _ => Action.Ignore

/-- ParserTable::exitEvents, modelled from the spec: DCS_PassThrough
leaves with Unhook; OSC_String with OSC_End. -/
def exitEvents (state : State) : Action :=
  match state with
  | State.DCS_PassThrough => Action.Unhook
  | State.OSC_String => Action.OSC_End
  | _ => Action.Ignore

/-- Result of handling one code point: the new state, the handler
invocations, the log records, and the code points used to index the
transition/event tables (the lookup trace makes the out-of-bounds
indexing of the C++ arrays observable in the model). -/
structure HandleResult where
  state : State
  actions : List Emission
  logs : List LogMsg
  lookups : List Nat
deriving DecidableEq, Repr

/-- Parser::handleViaTables: the live dispatcher.  Ground-state printable
fast path first; otherwise a table lookup at the current code point:
a defined transition fires Leave(exit of current), Transition(event),
assigns the state, then Enter(entry of target); else a defined event
fires in place; else the pair is logged as unknown. -/
def handleViaTables (hasHandler hasLogger : Bool) (state : State) (cp : Nat) :
    HandleResult :=
  if state = State.Ground ∧ isPrintChar cp then
    ⟨state, invokeAction hasHandler ActionClass.Event Action.Print cp, [], []⟩
  else if transitions state cp ≠ State.Undefined then
    ⟨transitions state cp,
      invokeAction hasHandler ActionClass.Leave (exitEvents state) cp ++
        invokeAction hasHandler ActionClass.Transition (events state cp) cp ++
        invokeAction hasHandler ActionClass.Enter (entryEvents (transitions state cp)) cp,
      [], [cp]⟩
  else if events state cp ≠ Action.Undefined then
    ⟨state, invokeAction hasHandler ActionClass.Event (events state cp) cp, [], [cp]⟩
  else
    ⟨state, [], logMsg hasLogger (LogMsg.unknownAction state cp), [cp]⟩

/-- utf8::Decoder::decode outcomes (the decoder contract of Parser.cpp's
visit over Incomplete / Invalid / Success). -/
inductive DecoderOutcome
  | Incomplete
  | Invalid (replacementCharacter : Nat)
  | Success (value : Nat)
deriving DecidableEq, Repr

/-- The per-outcome body of Parser::parse's visit: Incomplete does
nothing (currentChar_ stays 0); Invalid logs "Invalid UTF8!", sets the
current char to the replacement and dispatches; Success sets the current
char to the decoded value and dispatches.  Returns the resulting
currentChar_ and the handling result. -/
def processOutcome (hasHandler hasLogger : Bool) (state : State) :
    DecoderOutcome → Nat × HandleResult
  | DecoderOutcome.Incomplete => (0, ⟨state, [], [], []⟩)
  | DecoderOutcome.Invalid r =>
    let h := handleViaTables hasHandler hasLogger state r
    (r, { h with logs := logMsg hasLogger LogMsg.invalidUtf8 ++ h.logs })
  | DecoderOutcome.Success v => (v, handleViaTables hasHandler hasLogger state v)

/-- The mutable parser fields that persist across fragments
(Parser.h: state_, currentChar_, utf8Decoder_), with the decoder state
abstract. -/
structure PState (D : Type) where
  state : State
  currentChar : Nat
  dec : D
deriving DecidableEq, Repr

/-- Everything a run produces: handler invocations, log records, table
lookup indices, and the number of input-cursor advances. -/
structure RunOut where
  actions : List Emission
  logs : List LogMsg
  lookups : List Nat
  consumed : Nat
deriving DecidableEq, Repr

/-- Parser::parse: while data is available, reset currentChar_ to 0,
decode the current byte, handle the outcome, and advance the cursor
(exactly once per byte, on every outcome). -/
def parse {D : Type} (decode : D → Nat → D × DecoderOutcome) (hasHandler hasLogger : Bool) :
    PState D → List Nat → PState D × RunOut
  | p, [] => (p, ⟨[], [], [], 0⟩)
  | p, b :: bs =>
    let d1 := (decode p.dec b).1
    let pr := processOutcome hasHandler hasLogger p.state (decode p.dec b).2
    let rest := parse decode hasHandler hasLogger ⟨pr.2.state, pr.1, d1⟩ bs
    (rest.1,
      ⟨pr.2.actions ++ rest.2.actions, pr.2.logs ++ rest.2.logs,
        pr.2.lookups ++ rest.2.lookups, rest.2.consumed + 1⟩)

/-- Parser::parseFragment: sets the cursor over the fragment and runs
Parser::parse to exhaustion; parser state persists across calls. -/
def parseFragment {D : Type} (decode : D → Nat → D × DecoderOutcome)
    (hasHandler hasLogger : Bool) (p : PState D) (bytes : List Nat) :
    PState D × RunOut :=
  parse decode hasHandler hasLogger p bytes

/-- Modelled from the spec: terminal/UTF8.h (utf8::Decoder) is not under
src/.  Section 4.2 gives the contract (Incomplete | Invalid(replacement,
typically U+FFFD) | Success(cp)); the only per-byte outcomes the spec
pins are those of scenario S6 for bytes 41 C3 28 42: Success 0x41, then
Invalid ("decoder yields Invalid on second byte") delivering U+FFFD,
then Success 0x28 ("28 re-enters decoder as new start"), then Success
0x42.  This model reproduces exactly those outcomes: ASCII bytes decode
to themselves, any other byte is reported Invalid with replacement
U+FFFD. -/
def utf8DecodeByte (b : Nat) : DecoderOutcome :=
  if b < 0x80 then DecoderOutcome.Success b else DecoderOutcome.Invalid 0xFFFD

/-- The spec-modelled decoder in the shape `parse` consumes (its state
carries no information). -/
def utf8Decode : Unit → Nat → Unit × DecoderOutcome :=
  fun u b => (u, utf8DecodeByte b)

/-- Parser::transitionTo: fires the Transition action, assigns the target
state, then fires the target's entry action (Clear for Escape, CSI_Entry
and DCS_Entry; Hook for DCS_PassThrough; OSC_Start for OSC_String).  The
C++ default for the action argument is Ignore.  Note: no Leave action is
fired here. -/
def transitionTo (hasHandler : Bool) (targetState : State) (action : Action)
    (cp : Nat) : State × List Emission :=
  (targetState,
    invokeAction hasHandler ActionClass.Transition action cp ++
      (match targetState with
       | State.Escape => invokeAction hasHandler ActionClass.Enter Action.Clear cp
       | State.CSI_Entry => invokeAction hasHandler ActionClass.Enter Action.Clear cp
       | State.DCS_Entry => invokeAction hasHandler ActionClass.Enter Action.Clear cp
       | State.DCS_PassThrough => invokeAction hasHandler ActionClass.Enter Action.Hook cp
       | State.OSC_String => invokeAction hasHandler ActionClass.Enter Action.OSC_Start cp
       | _ => []))

/-- Lifts a transitionTo result into a HandleResult with no logs. -/
def switchStep (r : State × List Emission) : HandleResult :=
  ⟨r.1, r.2, [], []⟩

/-- Parser::handleViaSwitch: the switch-statement transcription of the
state machine (not called from the live path).  Transcribed exactly from
Parser.cpp, including the anywhere preamble and the per-state cases as
written in the source. -/
def handleViaSwitch (hasHandler hasLogger : Bool) (state : State) (cp : Nat) :
    HandleResult :=
  if cp = 0x18 ∨ cp = 0x1A ∨ cp = 0x9C ∨ «includes» ⟨0x80, 0x8F⟩ cp ∨
      «includes» ⟨0x91, 0x97⟩ cp then
    switchStep (transitionTo hasHandler State.Ground Action.Ignore cp)
  else if cp = 0x1B then
    switchStep (transitionTo hasHandler State.Escape Action.Ignore cp)
  else if cp = 0x90 then
    switchStep (transitionTo hasHandler State.DCS_Entry Action.Ignore cp)
  else if cp = 0x98 ∨ cp = 0x9E ∨ cp = 0x9F then
    switchStep (transitionTo hasHandler State.SOS_PM_APC_String Action.Ignore cp)
  else
    match state with
    | State.Undefined => ⟨state, [], [], []⟩
    | State.Ground =>
      if isExecuteChar cp then
        ⟨state, invokeAction hasHandler ActionClass.Event Action.Execute cp, [], []⟩
      else if isPrintChar cp then
        ⟨state, invokeAction hasHandler ActionClass.Event Action.Print cp, [], []⟩
      else ⟨state, [], logMsg hasLogger (LogMsg.invalidInput state cp), []⟩
    | State.Escape =>
      if isExecuteChar cp then
        ⟨state, invokeAction hasHandler ActionClass.Event Action.Execute cp, [], []⟩
      else if cp = 0x7F then
        ⟨state, invokeAction hasHandler ActionClass.Event Action.Ignore cp, [], []⟩
      else if cp = 0x58 ∨ cp = 0x5E ∨ cp = 0x5F then
        switchStep (transitionTo hasHandler State.SOS_PM_APC_String Action.Ignore cp)
      else if cp = 0x50 then
        switchStep (transitionTo hasHandler State.DCS_Entry Action.Ignore cp)
      else if cp = 0x5D then
        switchStep (transitionTo hasHandler State.OSC_String Action.Ignore cp)
      else if cp = 0x5B then
        switchStep (transitionTo hasHandler State.CSI_Entry Action.Ignore cp)
      else if «includes» ⟨0x30, 0x4F⟩ cp ∨ «includes» ⟨0x51, 0x57⟩ cp ∨ cp = 0x59 ∨
          cp = 0x5A ∨ cp = 0x5C ∨ «includes» ⟨0x60, 0x7E⟩ cp then
        switchStep (transitionTo hasHandler State.Ground Action.ESC_Dispatch cp)
      else if «includes» ⟨0x20, 0x2F⟩ cp then
        switchStep (transitionTo hasHandler State.EscapeIntermediate Action.Collect cp)
      else ⟨state, [], logMsg hasLogger (LogMsg.invalidInput state cp), []⟩
    | State.EscapeIntermediate =>
      if isExecuteChar cp then
        ⟨state, invokeAction hasHandler ActionClass.Event Action.Execute cp, [], []⟩
      else if «includes» ⟨0x20, 0x2F⟩ cp then
        ⟨state, invokeAction hasHandler ActionClass.Event Action.Collect cp, [], []⟩
      else if cp = 0x7F then
        ⟨state, invokeAction hasHandler ActionClass.Event Action.Ignore cp, [], []⟩
      else if «includes» ⟨0x30, 0x7E⟩ cp then
        switchStep (transitionTo hasHandler State.Ground Action.ESC_Dispatch cp)
      else ⟨state, [], logMsg hasLogger (LogMsg.invalidInput state cp), []⟩
    | State.CSI_Entry =>
      if isExecuteChar cp then
        ⟨state, invokeAction hasHandler ActionClass.Event Action.Execute cp, [], []⟩
      else if cp = 0x7F then
        ⟨state, invokeAction hasHandler ActionClass.Event Action.Ignore cp, [], []⟩
      else if «includes» ⟨0x40, 0x7E⟩ cp then
        switchStep (transitionTo hasHandler State.Ground Action.CSI_Dispatch cp)
      else if «includes» ⟨0x20, 0x2F⟩ cp then
        switchStep (transitionTo hasHandler State.CSI_Intermediate Action.Collect cp)
      else if cp = 0x3A then
        ⟨state, invokeAction hasHandler ActionClass.Event Action.Ignore cp, [], []⟩
      else if isParamChar cp then
        ⟨state, invokeAction hasHandler ActionClass.Event Action.Param cp, [], []⟩
      else if «includes» ⟨0x3C, 0x3F⟩ cp then
        ⟨state, invokeAction hasHandler ActionClass.Event Action.Collect cp, [], []⟩
      else ⟨state, [], logMsg hasLogger (LogMsg.invalidInput state cp), []⟩
    | State.CSI_Param =>
      if isExecuteChar cp then
        ⟨state, invokeAction hasHandler ActionClass.Event Action.Execute cp, [], []⟩
      else if isParamChar cp then
        ⟨state, invokeAction hasHandler ActionClass.Event Action.Param cp, [], []⟩
      else if cp = 0x7F then
        ⟨state, invokeAction hasHandler ActionClass.Event Action.Ignore cp, [], []⟩
      else if cp = 0x3A ∨ «includes» ⟨0x3C, 0x3F⟩ cp then
        switchStep (transitionTo hasHandler State.DCS_Ignore Action.Ignore cp)
      else if «includes» ⟨0x20, 0x2F⟩ cp then
        switchStep (transitionTo hasHandler State.DCS_Intermediate Action.Ignore cp)
      else if «includes» ⟨0x40, 0x7E⟩ cp then
        switchStep (transitionTo hasHandler State.DCS_PassThrough Action.Ignore cp)
      else ⟨state, [], logMsg hasLogger (LogMsg.invalidInput state cp), []⟩
    | State.CSI_Intermediate =>
      if isExecuteChar cp then
        ⟨state, invokeAction hasHandler ActionClass.Event Action.Execute cp, [], []⟩
      else if «includes» ⟨0x20, 0x2F⟩ cp then
        ⟨state, invokeAction hasHandler ActionClass.Event Action.Collect cp, [], []⟩
      else if cp = 0x7F then
        ⟨state, invokeAction hasHandler ActionClass.Event Action.Ignore cp, [], []⟩
      else if «includes» ⟨0x30, 0x3F⟩ cp then
        switchStep (transitionTo hasHandler State.CSI_Ignore Action.Ignore cp)
      else if «includes» ⟨0x40, 0x7E⟩ cp then
        switchStep (transitionTo hasHandler State.Ground Action.CSI_Dispatch cp)
      else ⟨state, [], logMsg hasLogger (LogMsg.invalidInput state cp), []⟩
    | State.CSI_Ignore =>
      if isExecuteChar cp then
        ⟨state, invokeAction hasHandler ActionClass.Event Action.Execute cp, [], []⟩
      else if «includes» ⟨0x20, 0x3F⟩ cp ∨ cp = 0x7F then
        ⟨state, invokeAction hasHandler ActionClass.Event Action.Ignore cp, [], []⟩
      else if «includes» ⟨0x40, 0x7E⟩ cp then
        switchStep (transitionTo hasHandler State.Ground Action.Ignore cp)
      else ⟨state, [], logMsg hasLogger (LogMsg.invalidInput state cp), []⟩
    | State.DCS_Entry =>
      if isExecuteChar cp then
        ⟨state, invokeAction hasHandler ActionClass.Event Action.Execute cp, [], []⟩
      else if cp = 0x7F then
        ⟨state, invokeAction hasHandler ActionClass.Event Action.Ignore cp, [], []⟩
      else if «includes» ⟨0x20, 0x2F⟩ cp then
        switchStep (transitionTo hasHandler State.DCS_Intermediate Action.Collect cp)
      else if cp = 0x3A then
        switchStep (transitionTo hasHandler State.DCS_Ignore Action.Ignore cp)
      else if isParamChar cp then
        switchStep (transitionTo hasHandler State.DCS_Param Action.Param cp)
      else if «includes» ⟨0x3C, 0x3F⟩ cp then
        switchStep (transitionTo hasHandler State.DCS_Param Action.Collect cp)
      else if «includes» ⟨0x40, 0x7E⟩ cp then
        switchStep (transitionTo hasHandler State.DCS_PassThrough Action.Ignore cp)
      else ⟨state, [], logMsg hasLogger (LogMsg.invalidInput state cp), []⟩
    | State.DCS_Param =>
      if isExecuteChar cp then
        ⟨state, invokeAction hasHandler ActionClass.Event Action.Execute cp, [], []⟩
      else if isParamChar cp then
        ⟨state, invokeAction hasHandler ActionClass.Event Action.Param cp, [], []⟩
      else if cp = 0x7F then
        ⟨state, invokeAction hasHandler ActionClass.Event Action.Ignore cp, [], []⟩
      else if cp = 0x3A ∨ «includes» ⟨0x3C, 0x3F⟩ cp then
        switchStep (transitionTo hasHandler State.DCS_Ignore Action.Ignore cp)
      else if «includes» ⟨0x20, 0x2F⟩ cp then
        switchStep (transitionTo hasHandler State.DCS_Intermediate Action.Ignore cp)
      else if «includes» ⟨0x40, 0x7E⟩ cp then
        switchStep (transitionTo hasHandler State.DCS_PassThrough Action.Ignore cp)
      else ⟨state, [], logMsg hasLogger (LogMsg.invalidInput state cp), []⟩
    | State.DCS_Intermediate =>
      if isExecuteChar cp then
        ⟨state, invokeAction hasHandler ActionClass.Event Action.Execute cp, [], []⟩
      else if «includes» ⟨0x20, 0x2F⟩ cp then
        ⟨state, invokeAction hasHandler ActionClass.Event Action.Collect cp, [], []⟩
      else if cp = 0x7F then
        ⟨state, invokeAction hasHandler ActionClass.Event Action.Ignore cp, [], []⟩
      else if «includes» ⟨0x40, 0x7E⟩ cp then
        switchStep (transitionTo hasHandler State.DCS_PassThrough Action.Ignore cp)
      else ⟨state, [], logMsg hasLogger (LogMsg.invalidInput state cp), []⟩
    | State.DCS_PassThrough =>
      if isExecuteChar cp ∨ «includes» ⟨0x20, 0x7E⟩ cp then
        ⟨state, invokeAction hasHandler ActionClass.Event Action.Put cp, [], []⟩
      else if cp = 0x7F then
        ⟨state, invokeAction hasHandler ActionClass.Event Action.Ignore cp, [], []⟩
      else if cp = 0x9C then
        let r := transitionTo hasHandler State.Ground Action.Ignore cp
        ⟨r.1, invokeAction hasHandler ActionClass.Event Action.Unhook cp ++ r.2, [], []⟩
      else ⟨state, [], logMsg hasLogger (LogMsg.invalidInput state cp), []⟩
    | State.DCS_Ignore =>
      if isExecuteChar cp ∨ «includes» ⟨0x20, 0x7F⟩ cp then
        ⟨state, invokeAction hasHandler ActionClass.Event Action.Ignore cp, [], []⟩
      else if cp = 0x9C then
        switchStep (transitionTo hasHandler State.Ground Action.Ignore cp)
      else ⟨state, [], logMsg hasLogger (LogMsg.invalidInput state cp), []⟩
    | State.OSC_String =>
      if isExecuteChar cp then
        ⟨state, invokeAction hasHandler ActionClass.Event Action.Ignore cp, [], []⟩
      else if «includes» ⟨0x20, 0x7F⟩ cp then
        ⟨state, invokeAction hasHandler ActionClass.Event Action.OSC_Put cp, [], []⟩
      else if cp = 0x9C then
        let r := transitionTo hasHandler State.Ground Action.Ignore cp
        ⟨r.1, invokeAction hasHandler ActionClass.Leave Action.OSC_End cp ++ r.2, [], []⟩
      else ⟨state, [], logMsg hasLogger (LogMsg.invalidInput state cp), []⟩
    | State.SOS_PM_APC_String =>
      if isExecuteChar cp then
        ⟨state, invokeAction hasHandler ActionClass.Event Action.Ignore cp, [], []⟩
      else if cp = 0x9C then
        switchStep (transitionTo hasHandler State.Ground Action.Ignore cp)
      else ⟨state, [], logMsg hasLogger (LogMsg.invalidInput state cp), []⟩

/-- Tests an emission for a given action class and action. -/
def isMark (c : ActionClass) (a : Action) (e : Emission) : Bool :=
  e.1 == c && e.2.1 == a

lemma handleViaTables_transition (hL : Bool) (s t : State) (cp : Nat)
    (hfast : ¬ (s = State.Ground ∧ isPrintChar cp))
    (ht : transitions s cp = t) (htU : t ≠ State.Undefined) :
    handleViaTables true hL s cp =
      ⟨t, [(ActionClass.Leave, exitEvents s, cp),
           (ActionClass.Transition, events s cp, cp),
           (ActionClass.Enter, entryEvents t, cp)], [], [cp]⟩ := by
  simp only [handleViaTables, if_neg hfast, ht]
  rw [if_pos htU]
  simp [invokeAction]

lemma handleViaTables_anywhere (hL : Bool) (s t : State) (cp : Nat)
    (ha : anywhereRow cp = some t) (hp : ¬ isPrintChar cp) (hcp : cp ≤ 0x9F)
    (htU : t ≠ State.Undefined) :
    handleViaTables true hL s cp =
      ⟨t, [(ActionClass.Leave, exitEvents s, cp),
           (ActionClass.Transition, Action.Ignore, cp),
           (ActionClass.Enter, entryEvents t, cp)], [], [cp]⟩ := by
  have hrow : tableRow s cp = (t, Action.Ignore) := by
    simp only [tableRow, ha]
    rw [if_neg (by omega)]
  have htr : transitions s cp = t := by simp [transitions, hrow]
  have hev : events s cp = Action.Ignore := by simp [events, hrow]
  rw [handleViaTables_transition hL s t cp (fun hc => hp hc.2) htr htU, hev]

/-- C1: The in-source transcription of the CSI_Param state
(Parser::handleViaSwitch) contradicts the claimed behaviour: a parameter
character does emit Event/Param with no state change, but 0x3A and
0x3C-0x3F transition to DCS_Ignore (not CSI_Ignore), 0x20-0x2F
transitions to DCS_Intermediate with no Collect (not CSI_Intermediate
with Collect), and a final character 0x40-0x7E transitions to
DCS_PassThrough with no CSI_Dispatch (not Ground with CSI_Dispatch) -
the case is a copy of the DCS_Param case, contradicting Parser.h's
documentation of CSI_Param and CSI_Ignore. -/
theorem csiParam_switch_routes_to_dcs :
    handleViaSwitch true false State.CSI_Param 0x31 =
      ⟨State.CSI_Param, [(ActionClass.Event, Action.Param, 0x31)], [], []⟩ ∧
    handleViaSwitch true false State.CSI_Param 0x3A =
      ⟨State.DCS_Ignore, [(ActionClass.Transition, Action.Ignore, 0x3A)], [], []⟩ ∧
    handleViaSwitch true false State.CSI_Param 0x25 =
      ⟨State.DCS_Intermediate, [(ActionClass.Transition, Action.Ignore, 0x25)], [], []⟩ ∧
    handleViaSwitch true false State.CSI_Param 0x6D =
      ⟨State.DCS_PassThrough, [(ActionClass.Transition, Action.Ignore, 0x6D),
                               (ActionClass.Enter, Action.Hook, 0x6D)], [], []⟩ := by
  decide

/-- C5: Refuted as stated.  The Ground-state fast path guards the table
lookup only in Ground: after ESC ] (bytes 1B 5D) the parser is in
OSC_String, and a byte that the decoder replaces with U+FFFD is then
looked up in the tables at index 0xFFFD, far outside [0x00, 0xA0) - in
the C++ this is an out-of-bounds read of transitions[state] and
events[state]. -/
theorem table_lookup_out_of_range :
    (parseFragment utf8Decode true true ⟨State.Ground, 0, ()⟩ [0x1B, 0x5D]).1.state =
      State.OSC_String ∧
    (parseFragment utf8Decode true true ⟨State.Ground, 0, ()⟩ [0x1B, 0x5D, 0xC3]).2.lookups =
      [0x1B, 0x5D, 0xFFFD] ∧
    ¬ (0xFFFD : Nat) < 0xA0 := by
  refine ⟨by decide, by decide, by omega⟩

/-- C4: every state transition performed by the live dispatcher fires
the callbacks in the exact order Leave(exit action of the current
state), Transition(transition action), then - with the state variable
assigned the target - Enter(entry action of the target state). -/
theorem transition_emission_order (hL : Bool) (s t : State) (cp : Nat)
    (hfast : ¬ (s = State.Ground ∧ isPrintChar cp))
    (ht : transitions s cp = t) (htU : t ≠ State.Undefined) :
    handleViaTables true hL s cp =
      ⟨t, [(ActionClass.Leave, exitEvents s, cp),
           (ActionClass.Transition, events s cp, cp),
           (ActionClass.Enter, entryEvents t, cp)], [], [cp]⟩ :=
  handleViaTables_transition hL s t cp hfast ht htU

/-- Witness for C4: the transition Ground -> Escape on 0x1B. -/
theorem transition_emission_order_witness :
    (¬ (State.Ground = State.Ground ∧ isPrintChar 0x1B)) ∧
    transitions State.Ground 0x1B = State.Escape ∧
    State.Escape ≠ State.Undefined ∧
    handleViaTables true false State.Ground 0x1B =
      ⟨State.Escape, [(ActionClass.Leave, Action.Ignore, 0x1B),
                      (ActionClass.Transition, Action.Ignore, 0x1B),
                      (ActionClass.Enter, Action.Clear, 0x1B)], [], [0x1B]⟩ :=
  ⟨by decide, by decide, by decide,
    transition_emission_order false State.Ground State.Escape 0x1B
      (by decide) (by decide) (by decide)⟩

/-- C2: the anywhere rules, as the table encodes them: from every state,
0x18, 0x1A, 0x9C and the C1 ranges [0x80,0x8F] and [0x91,0x97] go to
Ground; 0x1B goes to Escape firing Enter/Clear; 0x90 goes to DCS_Entry
firing Enter/Clear; 0x98, 0x9E and 0x9F go to SOS_PM_APC_String - each
with the ordered Leave/Transition/Enter emissions, the Leave carrying
the source state's exit action, which is OSC_End for OSC_String and
Unhook for DCS_PassThrough. -/
theorem anywhere_rules (hL : Bool) (s : State) (cp : Nat)
    (hs : s ≠ State.Undefined) :
    ((cp = 0x18 ∨ cp = 0x1A ∨ cp = 0x9C ∨ «includes» ⟨0x80, 0x8F⟩ cp ∨
        «includes» ⟨0x91, 0x97⟩ cp) →
      handleViaTables true hL s cp =
        ⟨State.Ground, [(ActionClass.Leave, exitEvents s, cp),
                        (ActionClass.Transition, Action.Ignore, cp),
                        (ActionClass.Enter, Action.Ignore, cp)], [], [cp]⟩) ∧
    (cp = 0x1B →
      handleViaTables true hL s cp =
        ⟨State.Escape, [(ActionClass.Leave, exitEvents s, cp),
                        (ActionClass.Transition, Action.Ignore, cp),
                        (ActionClass.Enter, Action.Clear, cp)], [], [cp]⟩) ∧
    (cp = 0x90 →
      handleViaTables true hL s cp =
        ⟨State.DCS_Entry, [(ActionClass.Leave, exitEvents s, cp),
                           (ActionClass.Transition, Action.Ignore, cp),
                           (ActionClass.Enter, Action.Clear, cp)], [], [cp]⟩) ∧
    ((cp = 0x98 ∨ cp = 0x9E ∨ cp = 0x9F) →
      handleViaTables true hL s cp =
        ⟨State.SOS_PM_APC_String, [(ActionClass.Leave, exitEvents s, cp),
                                   (ActionClass.Transition, Action.Ignore, cp),
                                   (ActionClass.Enter, Action.Ignore, cp)], [], [cp]⟩) ∧
    exitEvents State.OSC_String = Action.OSC_End ∧
    exitEvents State.DCS_PassThrough = Action.Unhook := by
  refine ⟨fun h => ?_, fun h => ?_, fun h => ?_, fun h => ?_, rfl, rfl⟩
  · have ha : anywhereRow cp = some State.Ground := by
      simp only [anywhereRow]
      rw [if_pos h]
    have hp : ¬ isPrintChar cp := by
      simp only [isPrintChar, isC1, «includes»] at *
      omega
    exact handleViaTables_anywhere hL s State.Ground cp ha hp (by
      simp only [«includes»] at h; omega) (by decide)
  · subst h
    exact handleViaTables_anywhere hL s State.Escape 0x1B (by decide) (by decide)
      (by decide) (by decide)
  · subst h
    exact handleViaTables_anywhere hL s State.DCS_Entry 0x90 (by decide) (by decide)
      (by decide) (by decide)
  · have ha : anywhereRow cp = some State.SOS_PM_APC_String := by
      rcases h with h | h | h <;> subst h <;> decide
    have hp : ¬ isPrintChar cp := by
      rcases h with h | h | h <;> subst h <;> decide
    exact handleViaTables_anywhere hL s State.SOS_PM_APC_String cp ha hp
      (by rcases h with h | h | h <;> omega) (by decide)

/-- Witness for C2: ST (0x9C) received in OSC_String transitions to
Ground and fires Leave(OSC_End) first. -/
theorem anywhere_rules_witness :
    State.OSC_String ≠ State.Undefined ∧
    handleViaTables true false State.OSC_String 0x9C =
      ⟨State.Ground, [(ActionClass.Leave, Action.OSC_End, 0x9C),
                      (ActionClass.Transition, Action.Ignore, 0x9C),
                      (ActionClass.Enter, Action.Ignore, 0x9C)], [], [0x9C]⟩ :=
  ⟨by decide,
    (anywhere_rules false State.OSC_String 0x9C (by decide)).1
      (Or.inr (Or.inr (Or.inl rfl)))⟩

/-- C6: for every byte sequence and every decoder, the parse loop
processes exactly one input-cursor advance per byte - the count of
advances equals the length of the input, whatever mix of Incomplete,
Invalid and Success outcomes the decoder reports (the function is total,
so termination is by construction). -/
theorem parseFragment_consumes_all {D : Type} (decode : D → Nat → D × DecoderOutcome)
    (hH hL : Bool) (p : PState D) (bs : List Nat) :
    (parseFragment decode hH hL p bs).2.consumed = bs.length := by
  induction bs generalizing p with
  | nil => rfl
  | cons b bs ih => simp [parseFragment, parse] at ih ⊢; exact ih _

/-- C7: streaming equivalence - for every decoder, every parser state
and every split of the input, feeding the two halves in succession
yields the same final parser state (state, current char and decoder
state) and the concatenation of the same emissions as feeding the whole
input at once. -/
theorem parseFragment_streaming_equiv {D : Type} (decode : D → Nat → D × DecoderOutcome)
    (hH hL : Bool) (p : PState D) (s1 s2 : List Nat) :
    (parseFragment decode hH hL p (s1 ++ s2)).1 =
      (parseFragment decode hH hL (parseFragment decode hH hL p s1).1 s2).1 ∧
    (parseFragment decode hH hL p (s1 ++ s2)).2.actions =
      (parseFragment decode hH hL p s1).2.actions ++
        (parseFragment decode hH hL (parseFragment decode hH hL p s1).1 s2).2.actions := by
  induction s1 generalizing p with
  | nil => simp [parseFragment, parse]
  | cons b bs ih =>
    simp only [parseFragment, parse, List.cons_append, List.append_eq] at ih ⊢
    exact ⟨(ih _).1, by rw [(ih _).2, List.append_assoc]⟩

/-- C8: an Invalid decode outcome is processed exactly like a Success
carrying the replacement code point, except that a diagnostic is logged
first; concretely, the byte sequence 41 C3 28 42 from Ground prints
U+41, U+FFFD, U+28 and U+42 and logs the invalid-UTF-8 diagnostic. -/
theorem invalid_utf8_replacement_processing (hH hL : Bool) (s : State) (r : Nat) :
    (processOutcome hH hL s (DecoderOutcome.Invalid r)).1 =
      (processOutcome hH hL s (DecoderOutcome.Success r)).1 ∧
    (processOutcome hH hL s (DecoderOutcome.Invalid r)).2.state =
      (processOutcome hH hL s (DecoderOutcome.Success r)).2.state ∧
    (processOutcome hH hL s (DecoderOutcome.Invalid r)).2.actions =
      (processOutcome hH hL s (DecoderOutcome.Success r)).2.actions ∧
    (processOutcome hH hL s (DecoderOutcome.Invalid r)).2.logs =
      logMsg hL LogMsg.invalidUtf8 ++
        (processOutcome hH hL s (DecoderOutcome.Success r)).2.logs ∧
    (parseFragment utf8Decode true true ⟨State.Ground, 0, ()⟩ [0x41, 0xC3, 0x28, 0x42]).2.actions =
      [(ActionClass.Event, Action.Print, 0x41), (ActionClass.Event, Action.Print, 0xFFFD),
       (ActionClass.Event, Action.Print, 0x28), (ActionClass.Event, Action.Print, 0x42)] ∧
    (parseFragment utf8Decode true true ⟨State.Ground, 0, ()⟩ [0x41, 0xC3, 0x28, 0x42]).1.state =
      State.Ground ∧
    (parseFragment utf8Decode true true ⟨State.Ground, 0, ()⟩ [0x41, 0xC3, 0x28, 0x42]).2.logs =
      [LogMsg.invalidUtf8] :=
  ⟨rfl, rfl, rfl, rfl, by decide, by decide, by decide⟩

lemma handleViaTables_logger_free (hH hL1 hL2 : Bool) (s : State) (cp : Nat) :
    (handleViaTables hH hL1 s cp).state = (handleViaTables hH hL2 s cp).state ∧
    (handleViaTables hH hL1 s cp).actions = (handleViaTables hH hL2 s cp).actions ∧
    (handleViaTables hH hL1 s cp).lookups = (handleViaTables hH hL2 s cp).lookups := by
  unfold handleViaTables
  split_ifs <;> simp

lemma processOutcome_logger_free (hH hL1 hL2 : Bool) (s : State) (o : DecoderOutcome) :
    (processOutcome hH hL1 s o).1 = (processOutcome hH hL2 s o).1 ∧
    (processOutcome hH hL1 s o).2.state = (processOutcome hH hL2 s o).2.state ∧
    (processOutcome hH hL1 s o).2.actions = (processOutcome hH hL2 s o).2.actions := by
  cases o with
  | Incomplete => exact ⟨rfl, rfl, rfl⟩
  | Invalid r =>
    have h := handleViaTables_logger_free hH hL1 hL2 s r
    exact ⟨rfl, h.1, h.2.1⟩
  | Success v =>
    have h := handleViaTables_logger_free hH hL1 hL2 s v
    exact ⟨rfl, h.1, h.2.1⟩

/-- C9: logger noninterference - with and without a logger, the parser
runs through exactly the same states and emits exactly the same
actions on every input. -/
theorem logger_noninterference {D : Type} (decode : D → Nat → D × DecoderOutcome)
    (hH hL1 hL2 : Bool) (p : PState D) (bs : List Nat) :
    (parseFragment decode hH hL1 p bs).1 = (parseFragment decode hH hL2 p bs).1 ∧
    (parseFragment decode hH hL1 p bs).2.actions =
      (parseFragment decode hH hL2 p bs).2.actions := by
  induction bs generalizing p with
  | nil => exact ⟨rfl, rfl⟩
  | cons b bs ih =>
    have h := processOutcome_logger_free hH hL1 hL2 p.state (decode p.dec b).2
    simp only [parseFragment, parse] at ih ⊢
    rw [h.1, h.2.1, h.2.2]
    exact ⟨(ih _).1, by rw [(ih _).2]⟩

lemma handleViaTables_handler_free (hL : Bool) (s : State) (cp : Nat) :
    (handleViaTables false hL s cp).state = (handleViaTables true hL s cp).state ∧
    (handleViaTables false hL s cp).actions = [] := by
  unfold handleViaTables
  split_ifs <;> simp [invokeAction]

lemma processOutcome_handler_free (hL : Bool) (s : State) (o : DecoderOutcome) :
    (processOutcome false hL s o).1 = (processOutcome true hL s o).1 ∧
    (processOutcome false hL s o).2.state = (processOutcome true hL s o).2.state ∧
    (processOutcome false hL s o).2.actions = [] := by
  cases o with
  | Incomplete => exact ⟨rfl, rfl, rfl⟩
  | Invalid r =>
    have h := handleViaTables_handler_free hL s r
    exact ⟨rfl, h.1, h.2⟩
  | Success v =>
    have h := handleViaTables_handler_free hL s v
    exact ⟨rfl, h.1, h.2⟩

/-- C10: a parser with no action handler invokes no callback and still
processes any byte sequence with exactly the same state evolution as a
parser with a handler. -/
theorem null_handler_safe {D : Type} (decode : D → Nat → D × DecoderOutcome)
    (hL : Bool) (p : PState D) (bs : List Nat) :
    (parseFragment decode false hL p bs).2.actions = [] ∧
    (parseFragment decode false hL p bs).1 = (parseFragment decode true hL p bs).1 := by
  induction bs generalizing p with
  | nil => exact ⟨rfl, rfl⟩
  | cons b bs ih =>
    have h := processOutcome_handler_free hL p.state (decode p.dec b).2
    simp only [parseFragment, parse] at ih ⊢
    rw [h.1, h.2.1, h.2.2]
    exact ⟨by rw [(ih _).1]; rfl, (ih _).2⟩

lemma handle_mark_balance (aIn aOut : Action) (X : State)
    (hin : ∀ t, entryEvents t = aIn ↔ t = X)
    (hout : ∀ u, exitEvents u = aOut ↔ u = X)
    (hL : Bool) (s : State) (cp : Nat) :
    (handleViaTables true hL s cp).actions.countP (isMark ActionClass.Enter aIn) +
        (if s = X then 1 else 0) =
      (handleViaTables true hL s cp).actions.countP (isMark ActionClass.Leave aOut) +
        (if (handleViaTables true hL s cp).state = X then 1 else 0) := by
  by_cases h1 : s = State.Ground ∧ isPrintChar cp
  · simp [handleViaTables, h1, invokeAction, isMark]
  · by_cases h2 : transitions s cp = State.Undefined
    · by_cases h3 : events s cp = Action.Undefined
      · simp [handleViaTables, h1, h2, h3, invokeAction, isMark]
      · simp [handleViaTables, h1, h2, h3, invokeAction, isMark]
    · rw [handleViaTables_transition hL s (transitions s cp) cp h1 rfl h2]
      have hE := hin (transitions s cp)
      have hXo := hout s
      simp only [List.countP_cons, List.countP_nil, isMark, Bool.and_eq_true, beq_iff_eq]
      simp [hE, hXo]
      split_ifs <;> omega

lemma processOutcome_mark_balance (aIn aOut : Action) (X : State)
    (hin : ∀ t, entryEvents t = aIn ↔ t = X)
    (hout : ∀ u, exitEvents u = aOut ↔ u = X)
    (hL : Bool) (s : State) (o : DecoderOutcome) :
    (processOutcome true hL s o).2.actions.countP (isMark ActionClass.Enter aIn) +
        (if s = X then 1 else 0) =
      (processOutcome true hL s o).2.actions.countP (isMark ActionClass.Leave aOut) +
        (if (processOutcome true hL s o).2.state = X then 1 else 0) := by
  cases o with
  | Incomplete => rfl
  | Invalid r => exact handle_mark_balance aIn aOut X hin hout hL s r
  | Success v => exact handle_mark_balance aIn aOut X hin hout hL s v

lemma parse_mark_balance (aIn aOut : Action) (X : State)
    (hin : ∀ t, entryEvents t = aIn ↔ t = X)
    (hout : ∀ u, exitEvents u = aOut ↔ u = X)
    {D : Type} (decode : D → Nat → D × DecoderOutcome) (hL : Bool) (bs : List Nat) :
    ∀ p : PState D,
      (parse decode true hL p bs).2.actions.countP (isMark ActionClass.Enter aIn) +
          (if p.state = X then 1 else 0) =
        (parse decode true hL p bs).2.actions.countP (isMark ActionClass.Leave aOut) +
          (if (parse decode true hL p bs).1.state = X then 1 else 0) := by
  induction bs with
  | nil => intro p; rfl
  | cons b bs ih =>
    intro p
    have hstep := processOutcome_mark_balance aIn aOut X hin hout hL p.state
      (decode p.dec b).2
    have hrest := ih ⟨(processOutcome true hL p.state (decode p.dec b).2).2.state,
      (processOutcome true hL p.state (decode p.dec b).2).1, (decode p.dec b).1⟩
    simp only [parse, List.countP_append] at hrest ⊢
    omega

/-- C3: over any input byte sequence starting (and ending) in Ground,
the number of Enter(OSC_Start) emissions equals the number of
Leave(OSC_End) emissions, and the number of Enter(Hook) emissions
equals the number of Leave(Unhook) emissions - every entry into
OSC_String, and every entry into DCS_PassThrough, is paired with
exactly one matching Leave before the parser is back in Ground. -/
theorem osc_hook_enter_leave_pairing {D : Type} (decode : D → Nat → D × DecoderOutcome)
    (hL : Bool) (d0 : D) (bs : List Nat)
    (hG : (parseFragment decode true hL ⟨State.Ground, 0, d0⟩ bs).1.state = State.Ground) :
    (parseFragment decode true hL ⟨State.Ground, 0, d0⟩ bs).2.actions.countP
        (isMark ActionClass.Enter Action.OSC_Start) =
      (parseFragment decode true hL ⟨State.Ground, 0, d0⟩ bs).2.actions.countP
        (isMark ActionClass.Leave Action.OSC_End) ∧
    (parseFragment decode true hL ⟨State.Ground, 0, d0⟩ bs).2.actions.countP
        (isMark ActionClass.Enter Action.Hook) =
      (parseFragment decode true hL ⟨State.Ground, 0, d0⟩ bs).2.actions.countP
        (isMark ActionClass.Leave Action.Unhook) := by
  have hOSC := parse_mark_balance Action.OSC_Start Action.OSC_End State.OSC_String
    (by intro t; cases t <;> decide) (by intro u; cases u <;> decide)
    decode hL bs ⟨State.Ground, 0, d0⟩
  have hDCS := parse_mark_balance Action.Hook Action.Unhook State.DCS_PassThrough
    (by intro t; cases t <;> decide) (by intro u; cases u <;> decide)
    decode hL bs ⟨State.Ground, 0, d0⟩
  simp only [parseFragment] at hG ⊢
  rw [hG] at hOSC hDCS
  simp at hOSC hDCS
  exact ⟨hOSC, hDCS⟩

/-- Witness for C3: the OSC sequence ESC ] A CAN enters OSC_String once,
leaves it via the anywhere rule for CAN, and is back in Ground with one
Enter(OSC_Start) and one Leave(OSC_End). -/
theorem osc_hook_enter_leave_pairing_witness :
    (parseFragment utf8Decode true false ⟨State.Ground, 0, ()⟩
        [0x1B, 0x5D, 0x41, 0x18]).1.state = State.Ground ∧
    (parseFragment utf8Decode true false ⟨State.Ground, 0, ()⟩
        [0x1B, 0x5D, 0x41, 0x18]).2.actions.countP
        (isMark ActionClass.Enter Action.OSC_Start) =
      (parseFragment utf8Decode true false ⟨State.Ground, 0, ()⟩
        [0x1B, 0x5D, 0x41, 0x18]).2.actions.countP
        (isMark ActionClass.Leave Action.OSC_End) :=
  ⟨by decide,
    (osc_hook_enter_leave_pairing utf8Decode false () [0x1B, 0x5D, 0x41, 0x18]
      (by decide)).1⟩

end Terminal
